import Mathlib

/-!
Shallow embedding of `src/automation/src/obsidian_vault/log_analyzer.py`:
a single-pass log analyser (`analyse_lines` / `analyse_log_text`) producing
an `IssueSummary`, and a deterministic reporter (`recommendations`,
`render_report`).  Machine integers are modelled as `Int`/`Nat`; the
fallible division in `recommendations` is modelled with `Option`.
-/

/-! ### Python string primitives -/

/-- Single-quote character (code point 39), used to build the pattern and
message literals that contain quotes in the Python source. -/
def squoteC : Char := Char.ofNat 39

/-- Single-quote as a one-character string. -/
def sqStr : String := String.mk [squoteC]

/-- Whitespace set used by Python `str.split()` (all characters for which
`str.isspace` holds). -/
def pyIsSpace (c : Char) : Bool :=
  let n := c.toNat
  (9 ≤ n && n ≤ 13) || n == 32 || (28 ≤ n && n ≤ 31) || n == 133 || n == 160 ||
  n == 5760 || (8192 ≤ n && n ≤ 8202) || n == 8232 || n == 8233 ||
  n == 8239 || n == 8287 || n == 12288

/-- Rebuild a string from a reversed character accumulator. -/
def revStr (acc : List Char) : String := String.mk acc.reverse

/-- Worker for `pySplit`: splits on runs of whitespace, dropping empty
tokens, exactly as Python `str.split()` with no arguments. -/
def pySplitAux : List Char → List Char → List String
  | [], acc => if acc.isEmpty then [] else [revStr acc]
  | c :: rest, acc =>
    if pyIsSpace c then
      if acc.isEmpty then pySplitAux rest [] else revStr acc :: pySplitAux rest []
    else pySplitAux rest (c :: acc)

/-- Model of Python `line.split()` (split on whitespace runs, no empty
tokens). -/
def pySplit (line : String) : List String := pySplitAux line.toList []

/-- Line-break characters recognised by Python `str.splitlines` (besides
the two-character sequence CR LF, handled separately). -/
def isLineBreak (c : Char) : Bool :=
  let n := c.toNat
  n == 10 || n == 13 || n == 11 || n == 12 || n == 28 || n == 29 || n == 30 ||
  n == 133 || n == 8232 || n == 8233

/-- Worker for `pySplitlines`; CR LF counts as a single break, every break
terminates a line, and a trailing segment is kept only when non-empty. -/
def pySplitlinesAux : List Char → List Char → List String
  | [], acc => if acc.isEmpty then [] else [revStr acc]
  | '\r' :: '\n' :: rest, acc => revStr acc :: pySplitlinesAux rest []
  | c :: rest, acc =>
    if isLineBreak c then revStr acc :: pySplitlinesAux rest []
    else pySplitlinesAux rest (c :: acc)

/-- Model of Python `text.splitlines()`. -/
def pySplitlines (text : String) : List String := pySplitlinesAux text.toList []

/-- Digit-run parser continuing after a first digit, allowing single
underscores strictly between digits, as Python `int()` does for string
arguments (ASCII digits; exotic Unicode decimal digits are not modelled). -/
def pyDigitsGo (acc : Nat) : List Char → Option Nat
  | [] => some acc
  | '_' :: c :: rest =>
    if c.isDigit then pyDigitsGo (acc * 10 + (c.toNat - 48)) rest else none
  | ['_'] => none
  | c :: rest =>
    if c.isDigit then pyDigitsGo (acc * 10 + (c.toNat - 48)) rest else none

/-- Nonempty digit run with optional internal underscores. -/
def pyDigits : List Char → Option Nat
  | [] => none
  | c :: rest =>
    if c.isDigit then pyDigitsGo (c.toNat - 48) rest else none

/-- Model of Python `int(token)` on a whitespace-free token: optional
single sign, then a nonempty digit run; any other shape raises
`ValueError`, modelled as `none`. -/
def pyInt : List Char → Option Int
  | '+' :: rest => (pyDigits rest).map (fun n => (n : Int))
  | '-' :: rest => (pyDigits rest).map (fun n => -(n : Int))
  | l => (pyDigits l).map (fun n => (n : Int))

/-- Model of Python `token.strip("│")`: remove the box-drawing border
character from both ends. -/
def stripBorder (t : List Char) : List Char :=
  ((t.dropWhile (fun c => c = '│')).reverse.dropWhile (fun c => c = '│')).reverse

/-- Does `p` occur as a prefix of `s`? -/
def hasPrefixL : List Char → List Char → Bool
  | _, [] => true
  | [], _ :: _ => false
  | a :: s, b :: p => a == b && hasPrefixL s p

/-- Does `p` occur as a contiguous substring of `s`?  Models Python
`p in s`. -/
def containsSub (p : List Char) : List Char → Bool
  | [] => hasPrefixL [] p
  | c :: rest => hasPrefixL (c :: rest) p || containsSub p rest

/-! ### Regex search models

Each `re.search` call in the source is modelled by a leftmost scan: the
matcher is tried at every position from the left, and the first success
wins, which is exactly the semantics of `re.search` for these patterns
(none of them can succeed at a position via backtracking when the direct
greedy attempt below fails). -/

/-- Literal head of `_OSCILLATION_RE` (the pattern `Oscillation detected.*`). -/
def oscPat : List Char := "Oscillation detected".toList

/-- Literal pieces of `_MISSING_BACKTICKS_RE`
(`Type name '([^']+)' found without backticks`). -/
def tnPat : List Char := "Type name ".toList ++ [squoteC]

/-- Tail of `_MISSING_BACKTICKS_RE` after the captured group. -/
def tnTail : List Char := squoteC :: " found without backticks".toList

/-- Literal head of `_UNACCEPTABLE_CHAR_RE` (`unacceptable character #x`
followed by four hex digits). -/
def ctrlPat : List Char := "unacceptable character #x".toList

/-- Literal head of `_RECURSION_LIMIT_RE` (`Recursion limit of (\d+) reached`). -/
def recPat : List Char := "Recursion limit of ".toList

/-- Literal tail of `_RECURSION_LIMIT_RE`. -/
def reachedPat : List Char := " reached".toList

/-- Exact substring checked for QA NoneType failures. -/
def nonePat : List Char :=
  ("argument of type " ++ sqStr ++ "NoneType" ++ sqStr ++ " is not iterable").toList

/-- Lower-case form of `_STATUS_DRAFT_RE` (`status set to 'draft'`,
IGNORECASE). -/
def draftPat : List Char := ("status set to " ++ sqStr ++ "draft" ++ sqStr).toList

/-- First alternative of `_FUTURE_DATE_RE` (`future(?:-looking)? dates?`,
IGNORECASE): the optional group absent.  The optional trailing `s` never
affects whether a search succeeds. -/
def futurePat1 : List Char := "future date".toList

/-- Second alternative of `_FUTURE_DATE_RE`: the optional `-looking` present. -/
def futurePat2 : List Char := "future-looking date".toList

/-- Substring triggering the notes-processed metric extraction. -/
def npPat : List Char := "Notes Processed".toList

/-- Substring triggering the errors metric extraction. -/
def errPat : List Char := "Errors".toList

/-- Substring excluding a line from the errors metric extraction. -/
def metPat : List Char := "Metric".toList

/-- Attempt of `_OSCILLATION_RE` at the current position: the literal head
must match, then `.*` greedily takes everything up to (excluding) the next
newline; the whole match (`group(0)`) is returned. -/
def oscAt (s : List Char) : Option (List Char) :=
  if hasPrefixL s oscPat then
    some (oscPat ++ (s.drop oscPat.length).takeWhile (fun c => ¬ c = '\n'))
  else none

/-- Leftmost `re.search` for `_OSCILLATION_RE`, returning `group(0)`. -/
def oscSearch : List Char → Option (List Char)
  | [] => none
  | c :: rest =>
    match oscAt (c :: rest) with
    | some m => some m
    | none => oscSearch rest

/-- Attempt of `_MISSING_BACKTICKS_RE` at the current position, returning
the captured type name (`group(1)`): the greedy `[^']+` can only match the
maximal quote-free run, which must be non-empty and followed by the
literal tail. -/
def backtickAt (s : List Char) : Option String :=
  if hasPrefixL s tnPat then
    let rest := s.drop tnPat.length
    let name := rest.takeWhile (fun c => ¬ c = squoteC)
    if name.isEmpty then none
    else if hasPrefixL (rest.drop name.length) tnTail then some (String.mk name)
    else none
  else none

/-- Leftmost `re.search` for `_MISSING_BACKTICKS_RE`. -/
def backtickSearch : List Char → Option String
  | [] => none
  | c :: rest =>
    match backtickAt (c :: rest) with
    | some r => some r
    | none => backtickSearch rest

/-- ASCII hexadecimal digit, as matched by `[0-9A-Fa-f]`. -/
def hexDigit (c : Char) : Bool :=
  c.isDigit || ('a' ≤ c && c ≤ 'f') || ('A' ≤ c && c ≤ 'F')

/-- Attempt of `_UNACCEPTABLE_CHAR_RE` at the current position, returning
`group(1).lower()`: exactly four hex digits after the literal head. -/
def ctrlAt (s : List Char) : Option String :=
  if hasPrefixL s ctrlPat then
    match s.drop ctrlPat.length with
    | a :: b :: c :: d :: _ =>
      if hexDigit a && hexDigit b && hexDigit c && hexDigit d then
        some (String.mk [a.toLower, b.toLower, c.toLower, d.toLower])
      else none
    | _ => none
  else none

/-- Leftmost `re.search` for `_UNACCEPTABLE_CHAR_RE`. -/
def ctrlSearch : List Char → Option String
  | [] => none
  | c :: rest =>
    match ctrlAt (c :: rest) with
    | some r => some r
    | none => ctrlSearch rest

/-- Attempt of `_RECURSION_LIMIT_RE` at the current position (only the
success of the search is used by the analyser; the digits are discarded).
Greedy `\d+` must take the maximal ASCII digit run, which must be
non-empty and followed by the literal tail. -/
def recAt (s : List Char) : Bool :=
  hasPrefixL s recPat &&
    (let rest := s.drop recPat.length
     let ds := rest.takeWhile Char.isDigit
     !ds.isEmpty && hasPrefixL (rest.drop ds.length) reachedPat)

/-- Leftmost `re.search` for `_RECURSION_LIMIT_RE`, success only. -/
def recSearch : List Char → Bool
  | [] => false
  | c :: rest => recAt (c :: rest) || recSearch rest

/-- ASCII lower-casing of a line, modelling the effect of `re.IGNORECASE`
for the all-ASCII patterns it is used with (full Unicode case folding is
not modelled). -/
def lowerLine (line : String) : List Char := line.toList.map Char.toLower

/-! ### Data model and analyser -/

/-- Structured summary of the common failure patterns in the log
(`IssueSummary` dataclass).  Python sets are modelled as duplicate-free
lists (insertion order is irrelevant to every observable: rendering sorts
them); counters are `Nat`; the optional metrics are `Option Int`. -/
structure IssueSummary where
  oscillation_messages : List String := []
  missing_backticks : List String := []
  unacceptable_control_codes : List String := []
  recursion_limit_hits : Nat := 0
  qa_verification_none_errors : Nat := 0
  draft_status_notes : Nat := 0
  future_dated_metadata_notes : Nat := 0
  notes_processed : Option Int := none
  notes_with_errors : Option Int := none
deriving DecidableEq

/-- Model of Python `set.add`: insert the element when it is not already a
member. -/
def setAdd (s : List String) (x : String) : List String :=
  if x ∈ s then s else s ++ [x]

/-- Model of the inner helper `_extract_last_int_from`: scan the reversed
token list, strip the border character, skip empty tokens, and return the
first token that parses as an integer. -/
def extractGo : List String → Option Int
  | [] => none
  | t :: rest =>
    let t' := stripBorder t.toList
    if t'.isEmpty then extractGo rest
    else
      match pyInt t' with
      | some v => some v
      | none => extractGo rest

/-- Return the last integer-like token contained in `line`
(`_extract_last_int_from` in the source). -/
def extract_last_int_from (line : String) : Option Int :=
  extractGo (pySplit line).reverse

/-- Missing-backticks detector step: on a match, add the captured type
name to the set. -/
def stepBackticks (s : IssueSummary) (line : String) : IssueSummary :=
  { s with missing_backticks :=
      match backtickSearch line.toList with
      | some name => setAdd s.missing_backticks name
      | none => s.missing_backticks }

/-- Oscillation detector step: on a match, append `group(0)` to the
message sequence. -/
def stepOsc (s : IssueSummary) (line : String) : IssueSummary :=
  { s with oscillation_messages :=
      match oscSearch line.toList with
      | some m => s.oscillation_messages ++ [String.mk m]
      | none => s.oscillation_messages }

/-- Control-character detector step: on a match, add the lower-cased hex
code to the set. -/
def stepCtrl (s : IssueSummary) (line : String) : IssueSummary :=
  { s with unacceptable_control_codes :=
      match ctrlSearch line.toList with
      | some code => setAdd s.unacceptable_control_codes code
      | none => s.unacceptable_control_codes }

/-- Recursion-limit detector step: increment the counter on a match. -/
def stepRec (s : IssueSummary) (line : String) : IssueSummary :=
  { s with recursion_limit_hits :=
      if recSearch line.toList then s.recursion_limit_hits + 1
      else s.recursion_limit_hits }

/-- QA NoneType detector step: increment the counter when the exact
substring occurs. -/
def stepNone (s : IssueSummary) (line : String) : IssueSummary :=
  { s with qa_verification_none_errors :=
      if containsSub nonePat line.toList then s.qa_verification_none_errors + 1
      else s.qa_verification_none_errors }

/-- Draft-status detector step (case-insensitive substring). -/
def stepDraft (s : IssueSummary) (line : String) : IssueSummary :=
  { s with draft_status_notes :=
      if containsSub draftPat (lowerLine line) then s.draft_status_notes + 1
      else s.draft_status_notes }

/-- Future-dated metadata detector step (case-insensitive, optional
`-looking` infix). -/
def stepFuture (s : IssueSummary) (line : String) : IssueSummary :=
  { s with future_dated_metadata_notes :=
      if containsSub futurePat1 (lowerLine line) || containsSub futurePat2 (lowerLine line) then
        s.future_dated_metadata_notes + 1
      else s.future_dated_metadata_notes }

/-- Notes-processed metric step: overwrite the field when the trigger
substring occurs and an integer token is found. -/
def stepNotes (s : IssueSummary) (line : String) : IssueSummary :=
  { s with notes_processed :=
      if containsSub npPat line.toList then
        match extract_last_int_from line with
        | some v => some v
        | none => s.notes_processed
      else s.notes_processed }

/-- Errors metric step: overwrite the field when `Errors` occurs, `Metric`
does not, and an integer token is found. -/
def stepErrors (s : IssueSummary) (line : String) : IssueSummary :=
  { s with notes_with_errors :=
      if containsSub errPat line.toList && !containsSub metPat line.toList then
        match extract_last_int_from line with
        | some v => some v
        | none => s.notes_with_errors
      else s.notes_with_errors }

/-- One iteration of the analyser loop body, applying the nine detectors
in source order. -/
def analyseStep (s : IssueSummary) (line : String) : IssueSummary :=
  stepErrors
    (stepNotes
      (stepFuture
        (stepDraft
          (stepNone
            (stepRec
              (stepCtrl (stepOsc (stepBackticks s line) line) line) line) line)
          line)
        line)
      line)
    line

/-- Analyse the provided log lines and return a structured summary
(`analyse_lines`). -/
def analyse_lines (lines : List String) : IssueSummary :=
  lines.foldl analyseStep {}

/-- Convenience wrapper around `analyse_lines` (`analyse_log_text`). -/
def analyse_log_text (text : String) : IssueSummary :=
  analyse_lines (pySplitlines text)

/-! ### Reporter -/

/-- Lexicographic code-point comparison of character lists, as Python
compares strings. -/
def charListLe : List Char → List Char → Bool
  | [], _ => true
  | _ :: _, [] => false
  | a :: s, b :: t =>
    if a.toNat = b.toNat then charListLe s t else decide (a.toNat < b.toNat)

/-- Python string comparison `a <= b` (code-point lexicographic). -/
def strLe (a b : String) : Bool := charListLe a.toList b.toList

/-- Model of Python `sorted` on a list of strings.  The source only sorts
duplicate-free sets, on which the sorted permutation is unique, so any
correct sorting algorithm is an exact model. -/
def sortStrings (l : List String) : List String :=
  l.insertionSort (fun a b => strLe a b = true)

/-- Model of `", ".join(sorted(xs))`. -/
def joinSorted (l : List String) : String :=
  String.intercalate ", " (sortStrings l)

/-- Round `num / den` to the nearest integer, ties to even, the rounding
Python applies when formatting.  Returns 0 for a zero denominator (the
callers guard that case). -/
def roundHalfEven (num den : Int) : Int :=
  if den = 0 then 0
  else
    let den' := if den < 0 then -den else den
    let num' := if den < 0 then -num else num
    let q := num'.ediv den'
    let r := num'.emod den'
    if 2 * r < den' then q
    else if den' < 2 * r then q + 1
    else if q.emod 2 = 0 then q else q + 1

/-- Model of the Python f-string `f"{rate:.1%}"` where
`rate = num / den`, via exact rational rounding (half to even).  This
agrees with the floating-point computation whenever `num * 1000 / den` is
exact or not on a representation boundary, which covers every value the
claims exercise. -/
def formatPercent1 (num den : Int) : String :=
  let t := roundHalfEven (num * 1000) den
  let sign := if t < 0 then "-" else ""
  let a := t.natAbs
  sign ++ toString (a / 10) ++ "." ++ toString (a % 10) ++ "%"

/-- Fixed prefix of the systemic-issues recommendation. -/
def sysHead : String := "Investigate systemic issues: "

/-- Advice string for the missing-backticks trigger. -/
def backticksAdvice (types : String) : String :=
  "Wrap Kotlin type identifiers in backticks during automated fixes to " ++
  "avoid validator oscillation (missing: " ++ types ++ ")."

/-- Advice string for the oscillation trigger. -/
def oscillationAdvice : String :=
  "Tune the fixer/validator handshake: automatically short-circuit after " ++
  "two oscillating iterations and flag the note for manual review with " ++
  "the concrete validator payload."

/-- Advice string for the future-dated metadata trigger. -/
def futureAdvice : String :=
  "Allow the metadata fixer to normalise future-dated timestamps when " ++
  "they exceed the allowed threshold instead of repeatedly deferring to " ++
  "manual review."

/-- Advice string for the draft-status trigger. -/
def draftAdvice : String :=
  "Escalate draft-status warnings with context so reviewers can make a " ++
  "publishability decision without combing through raw logs."

/-- Advice string for the control-character trigger. -/
def ctrlAdvice (codes : String) : String :=
  "Strip non-printable control characters (e.g. 0x" ++ codes ++ ")."

/-- Advice string for the recursion-limit trigger. -/
def recursionAdvice : String :=
  "Increase the LangGraph recursion limit or implement stronger guard " ++
  "rails on fix-planning loops to prevent runaway iterations."

/-- Advice string for the QA NoneType trigger. -/
def qaAdvice : String :=
  "Guard QA verification against None results before membership tests " ++
  "so automation no longer crashes on " ++ sqStr ++ "NoneType" ++ sqStr ++
  " iterable checks."

/-- Advice string for the systemic-issues trigger. -/
def systemicAdvice (e p : Int) : String :=
  sysHead ++ toString e ++ " of " ++ toString p ++
  " notes (" ++ formatPercent1 e p ++ ") still end in errors despite modifications."

/-- Advice accumulated by the seven guarded appends that precede the
systemic-issues branch of `IssueSummary.recommendations` (a sequence of
`if trigger: advice.append(text)` statements, i.e. a concatenation of
conditional singletons). -/
def coreAdvice (s : IssueSummary) : List String :=
  (if s.missing_backticks.isEmpty then []
   else [backticksAdvice (joinSorted s.missing_backticks)]) ++
  (if s.oscillation_messages.isEmpty then [] else [oscillationAdvice]) ++
  (if s.future_dated_metadata_notes ≠ 0 then [futureAdvice] else []) ++
  (if s.draft_status_notes ≠ 0 then [draftAdvice] else []) ++
  (if s.unacceptable_control_codes.isEmpty then []
   else [ctrlAdvice (joinSorted s.unacceptable_control_codes)]) ++
  (if s.recursion_limit_hits ≠ 0 then [recursionAdvice] else []) ++
  (if s.qa_verification_none_errors ≠ 0 then [qaAdvice] else [])

/-- Model of `IssueSummary.recommendations`.  The final branch divides by
`notes_processed`; a `ZeroDivisionError` is modelled as `none`. -/
def recommendations (s : IssueSummary) : Option (List String) :=
  let advice := coreAdvice s
  match s.notes_processed, s.notes_with_errors with
  | some p, some e =>
    if 0 < e then
      if p = 0 then none
      else some (advice ++ [systemicAdvice e p])
    else some advice
  | _, _ => some advice

/-- Model of Python `x or 0` for an optional integer `x` (`None` and `0`
are falsy). -/
def pyOrInt (o : Option Int) (b : Int) : Int :=
  match o with
  | none => b
  | some v => if v = 0 then b else v

/-- Report lines accumulated by `render_report` before joining, given the
already-computed recommendation list; mirrors the source's sequence of
guarded appends. -/
def renderLines (s : IssueSummary) (advice : List String) : List String :=
  let l0 : List String := ["LLM review log analysis", "========================"]
  let l1 :=
    match s.notes_processed with
    | some processed =>
      l0 ++ ["Processed notes: " ++ toString processed ++
             " (errors: " ++ toString (pyOrInt s.notes_with_errors 0) ++ ")"]
    | none => l0
  let l2 :=
    if s.oscillation_messages.isEmpty then l1
    else (l1 ++ ["", "Oscillation detected in validators:"]) ++
      s.oscillation_messages.map (fun m => "  - " ++ m)
  let l3 :=
    if s.missing_backticks.isEmpty then l2
    else l2 ++ ["", "Missing backticks around Kotlin types: " ++
                joinSorted s.missing_backticks]
  let l4 :=
    if s.unacceptable_control_codes.isEmpty then l3
    else l3 ++ ["Control character crashes encountered: " ++
                joinSorted s.unacceptable_control_codes]
  let l5 :=
    if s.recursion_limit_hits ≠ 0 then
      l4 ++ ["Recursion limit hit: " ++ toString s.recursion_limit_hits ++ " time(s)"]
    else l4
  let l6 :=
    if s.qa_verification_none_errors ≠ 0 then
      l5 ++ ["QA verification NoneType errors: " ++
             toString s.qa_verification_none_errors ++ " occurrence(s)"]
    else l5
  let l7 :=
    if s.future_dated_metadata_notes ≠ 0 then
      l6 ++ ["Future-dated metadata warnings: " ++
             toString s.future_dated_metadata_notes ++ " occurrence(s)"]
    else l6
  let l8 :=
    if s.draft_status_notes ≠ 0 then
      l7 ++ ["Draft-status metadata warnings: " ++
             toString s.draft_status_notes ++ " occurrence(s)"]
    else l7
  if advice.isEmpty then l8
  else (l8 ++ ["", "Recommended follow-up actions:"]) ++
    advice.map (fun a => "  * " ++ a)

/-- Model of `render_report`: a deterministic human-readable report, or
`none` when `recommendations` raises. -/
def render_report (s : IssueSummary) : Option String :=
  match recommendations s with
  | none => none
  | some advice => some (String.intercalate "\n" (renderLines s advice))

/-! ### Specification-side definitions

These restate parts of the specification's wording independently of the
implementation, to be compared with the embedded code. -/

/-- Oscillation entry contributed by one line, as computed by the
implementation (`group(0)` of the search, or nothing). -/
def oscEntry (line : String) : Option String :=
  (oscSearch line.toList).map String.mk

/-- Index of the first position of `l` at which `p` occurs as a prefix
(the spec's "first occurrence"). -/
def firstMatchIdx (p l : List Char) : Option Nat :=
  (List.range (l.length + 1)).find? (fun i => hasPrefixL (l.drop i) p)

/-- Oscillation match text anchored at position `i` of `l`: the literal
pattern followed by the rest of the line up to (excluding) the next
newline. -/
def oscBuild (l : List Char) (i : Nat) : List Char :=
  oscPat ++ ((l.drop i).drop oscPat.length).takeWhile (fun c => ¬ c = '\n')

/-- Specification-side oscillation entry: present exactly when the line
contains `Oscillation detected`, and equal to the text from the first
occurrence of that substring to the end of the line (truncated at a
newline character). -/
def oscEntrySpec (line : String) : Option String :=
  (firstMatchIdx oscPat line.toList).map (fun i => String.mk (oscBuild line.toList i))

/-- Last-seen-wins accumulator for the notes-processed metric over a
sequence of lines. -/
def npFold (acc : Option Int) (line : String) : Option Int :=
  if containsSub npPat line.toList then
    match extract_last_int_from line with
    | some v => some v
    | none => acc
  else acc

/-- Last-seen-wins accumulator for the errors metric over a sequence of
lines. -/
def errFold (acc : Option Int) (line : String) : Option Int :=
  if containsSub errPat line.toList && !containsSub metPat line.toList then
    match extract_last_int_from line with
    | some v => some v
    | none => acc
  else acc

/-- Does the advice list contain the systemic-issues recommendation
(identified by its fixed leading text)? -/
def hasSystemic (advice : List String) : Bool :=
  advice.any (fun a => hasPrefixL a.toList sysHead.toList)

/-- Specification-side report template: the fixed global section order,
each section a guarded block, concatenated.  `errors` defaults to 0 when
`notes_with_errors` is absent. -/
def reportTemplate (s : IssueSummary) (advice : List String) : List String :=
  ["LLM review log analysis", "========================"] ++
  (match s.notes_processed with
   | some processed =>
     ["Processed notes: " ++ toString processed ++
      " (errors: " ++ toString (s.notes_with_errors.getD 0) ++ ")"]
   | none => []) ++
  (if s.oscillation_messages.isEmpty then []
   else ["", "Oscillation detected in validators:"] ++
     s.oscillation_messages.map (fun m => "  - " ++ m)) ++
  (if s.missing_backticks.isEmpty then []
   else ["", "Missing backticks around Kotlin types: " ++
         joinSorted s.missing_backticks]) ++
  (if s.unacceptable_control_codes.isEmpty then []
   else ["Control character crashes encountered: " ++
         joinSorted s.unacceptable_control_codes]) ++
  (if s.recursion_limit_hits ≠ 0 then
     ["Recursion limit hit: " ++ toString s.recursion_limit_hits ++ " time(s)"]
   else []) ++
  (if s.qa_verification_none_errors ≠ 0 then
     ["QA verification NoneType errors: " ++
      toString s.qa_verification_none_errors ++ " occurrence(s)"]
   else []) ++
  (if s.future_dated_metadata_notes ≠ 0 then
     ["Future-dated metadata warnings: " ++
      toString s.future_dated_metadata_notes ++ " occurrence(s)"]
   else []) ++
  (if s.draft_status_notes ≠ 0 then
     ["Draft-status metadata warnings: " ++
      toString s.draft_status_notes ++ " occurrence(s)"]
   else []) ++
  (if advice.isEmpty then []
   else ["", "Recommended follow-up actions:"] ++ advice.map (fun a => "  * " ++ a))

/-! ### Helper lemmas -/

/-- Projection of one analyser iteration: recursion-limit counter. -/
theorem analyseStep_rec (s : IssueSummary) (line : String) :
    (analyseStep s line).recursion_limit_hits =
      if recSearch line.toList then s.recursion_limit_hits + 1
      else s.recursion_limit_hits := rfl

/-- Projection of one analyser iteration: QA NoneType counter. -/
theorem analyseStep_qa (s : IssueSummary) (line : String) :
    (analyseStep s line).qa_verification_none_errors =
      if containsSub nonePat line.toList then s.qa_verification_none_errors + 1
      else s.qa_verification_none_errors := rfl

/-- Projection of one analyser iteration: draft-status counter. -/
theorem analyseStep_draft (s : IssueSummary) (line : String) :
    (analyseStep s line).draft_status_notes =
      if containsSub draftPat (lowerLine line) then s.draft_status_notes + 1
      else s.draft_status_notes := rfl

/-- Projection of one analyser iteration: future-dated counter. -/
theorem analyseStep_future (s : IssueSummary) (line : String) :
    (analyseStep s line).future_dated_metadata_notes =
      if containsSub futurePat1 (lowerLine line) || containsSub futurePat2 (lowerLine line) then
        s.future_dated_metadata_notes + 1
      else s.future_dated_metadata_notes := rfl

/-- Projection of one analyser iteration: missing-backticks set. -/
theorem analyseStep_backticks (s : IssueSummary) (line : String) :
    (analyseStep s line).missing_backticks =
      match backtickSearch line.toList with
      | some name => setAdd s.missing_backticks name
      | none => s.missing_backticks := rfl

/-- Projection of one analyser iteration: control-codes set. -/
theorem analyseStep_ctrl (s : IssueSummary) (line : String) :
    (analyseStep s line).unacceptable_control_codes =
      match ctrlSearch line.toList with
      | some code => setAdd s.unacceptable_control_codes code
      | none => s.unacceptable_control_codes := rfl

/-- Projection of one analyser iteration: notes-processed metric. -/
theorem analyseStep_np (s : IssueSummary) (line : String) :
    (analyseStep s line).notes_processed =
      if containsSub npPat line.toList then
        match extract_last_int_from line with
        | some v => some v
        | none => s.notes_processed
      else s.notes_processed := rfl

/-- Projection of one analyser iteration: errors metric. -/
theorem analyseStep_errors (s : IssueSummary) (line : String) :
    (analyseStep s line).notes_with_errors =
      if containsSub errPat line.toList && !containsSub metPat line.toList then
        match extract_last_int_from line with
        | some v => some v
        | none => s.notes_with_errors
      else s.notes_with_errors := rfl

/-- Projection of one analyser iteration: oscillation messages. -/
theorem analyseStep_osc (s : IssueSummary) (line : String) :
    (analyseStep s line).oscillation_messages =
      s.oscillation_messages ++ (oscEntry line).toList := by
  show (match oscSearch line.toList with
        | some m => s.oscillation_messages ++ [String.mk m]
        | none => s.oscillation_messages) =
      s.oscillation_messages ++ (oscEntry line).toList
  unfold oscEntry
  cases oscSearch line.toList <;> simp

/-- Membership is preserved by `setAdd`. -/
theorem setAdd_mem (l : List String) (y x : String) (hx : x ∈ l) : x ∈ setAdd l y := by
  unfold setAdd
  split
  · exact hx
  · exact List.mem_append_left _ hx

/-- Oscillation messages of a whole scan: the starting messages followed
by the per-line entries in encounter order. -/
theorem foldl_osc (lines : List String) (s : IssueSummary) :
    (lines.foldl analyseStep s).oscillation_messages =
      s.oscillation_messages ++ lines.flatMap (fun l => (oscEntry l).toList) := by
  induction lines generalizing s with
  | nil => simp
  | cons a ls ih =>
    rw [List.foldl_cons, ih, analyseStep_osc, List.flatMap_cons, List.append_assoc]

/-- Notes-processed metric of a whole scan is a last-seen-wins fold. -/
theorem foldl_np (lines : List String) (s : IssueSummary) :
    (lines.foldl analyseStep s).notes_processed =
      lines.foldl npFold s.notes_processed := by
  induction lines generalizing s with
  | nil => rfl
  | cons a ls ih =>
    rw [List.foldl_cons, ih, List.foldl_cons, analyseStep_np]
    rfl

/-- Errors metric of a whole scan is a last-seen-wins fold. -/
theorem foldl_errors (lines : List String) (s : IssueSummary) :
    (lines.foldl analyseStep s).notes_with_errors =
      lines.foldl errFold s.notes_with_errors := by
  induction lines generalizing s with
  | nil => rfl
  | cons a ls ih =>
    rw [List.foldl_cons, ih, List.foldl_cons, analyseStep_errors]
    rfl

/-- An empty token never parses as an integer. -/
theorem pyInt_nil : pyInt [] = none := rfl

/-- The right-to-left scan of `extractGo` returns the first parseable
token of its argument, i.e. the head of the parses in scan order. -/
theorem extractGo_eq (m : List String) :
    extractGo m = (m.filterMap (fun t => pyInt (stripBorder t.toList))).head? := by
  induction m with
  | nil => rfl
  | cons t rest ih =>
    show (if (stripBorder t.toList).isEmpty then extractGo rest
          else
            match pyInt (stripBorder t.toList) with
            | some v => some v
            | none => extractGo rest) = _
    rw [List.filterMap_cons]
    by_cases he : (stripBorder t.toList).isEmpty
    · have hnil : stripBorder t.toList = [] := by
        simpa [List.isEmpty_iff] using he
      rw [if_pos he, hnil, pyInt_nil, ih]
    · rw [if_neg he]
      cases hp : pyInt (stripBorder t.toList) with
      | none => simpa [hp] using ih
      | some v => simp [hp]

/-- The extraction helper returns the integer value of the last
whitespace-delimited token on the line that parses after stripping the
border character. -/
theorem extract_eq_getLast (line : String) :
    extract_last_int_from line =
      ((pySplit line).filterMap (fun t => pyInt (stripBorder t.toList))).getLast? := by
  unfold extract_last_int_from
  rw [extractGo_eq, List.filterMap_reverse, List.head?_reverse]

/-- Python `x or 0` on an optional integer coincides with defaulting to 0. -/
theorem pyOrInt_zero (o : Option Int) : pyOrInt o 0 = o.getD 0 := by
  cases o with
  | none => rfl
  | some v =>
    by_cases hv : v = 0 <;> simp [pyOrInt, hv]

/-- String concatenation concatenates the character lists. -/
theorem toList_append (a b : String) : (a ++ b).toList = a.toList ++ b.toList := by
  cases a
  cases b
  rfl

/-- The empty pattern is a prefix of everything. -/
theorem hasPrefixL_nilPat : ∀ l : List Char, hasPrefixL l [] = true := by
  intro l
  cases l <;> rfl

/-- A prefix of `u` is also a prefix of `u ++ v`. -/
theorem hasPrefixL_append_left :
    ∀ (u p : List Char), hasPrefixL u p = true → ∀ v, hasPrefixL (u ++ v) p = true := by
  intro u p
  induction p generalizing u with
  | nil => intro _ v; exact hasPrefixL_nilPat _
  | cons b p' ih =>
    intro h v
    cases u with
    | nil => simp [hasPrefixL] at h
    | cons a u' =>
      rw [List.cons_append]
      rw [show hasPrefixL (a :: u') (b :: p') = (a == b && hasPrefixL u' p') from rfl] at h
      rw [show hasPrefixL (a :: (u' ++ v)) (b :: p') = (a == b && hasPrefixL (u' ++ v) p') from rfl]
      rcases Bool.and_eq_true_iff.mp h with ⟨h1, h2⟩
      rw [h1, ih u' h2 v]
      rfl

/-- Whether `p` is a prefix of `u ++ v` only depends on `u` when `p` is
no longer than `u`. -/
theorem hasPrefixL_append_of_ge :
    ∀ (p u : List Char), p.length ≤ u.length →
      ∀ v, hasPrefixL (u ++ v) p = hasPrefixL u p := by
  intro p
  induction p with
  | nil => intro u _ v; rw [hasPrefixL_nilPat, hasPrefixL_nilPat]
  | cons b p' ih =>
    intro u h v
    cases u with
    | nil => simp at h
    | cons a u' =>
      rw [List.cons_append]
      rw [show hasPrefixL (a :: (u' ++ v)) (b :: p') = (a == b && hasPrefixL (u' ++ v) p') from rfl]
      rw [show hasPrefixL (a :: u') (b :: p') = (a == b && hasPrefixL u' p') from rfl]
      rw [ih u' (by simpa using h) v]

/-- Every list is a prefix of itself. -/
theorem hasPrefixL_self : ∀ l : List Char, hasPrefixL l l = true := by
  intro l
  induction l with
  | nil => rfl
  | cons a t ih =>
    rw [show hasPrefixL (a :: t) (a :: t) = (a == a && hasPrefixL t t) from rfl, ih]
    simp

/-- The oscillation search succeeds exactly when the line contains the
literal `Oscillation detected`. -/
theorem oscSearch_isSome :
    ∀ l : List Char, (oscSearch l).isSome = containsSub oscPat l := by
  intro l
  induction l with
  | nil =>
    show (oscSearch []).isSome = hasPrefixL [] oscPat
    rfl
  | cons c rest ih =>
    show (match oscAt (c :: rest) with
          | some m => some m
          | none => oscSearch rest).isSome =
        (hasPrefixL (c :: rest) oscPat || containsSub oscPat rest)
    unfold oscAt
    by_cases h : hasPrefixL (c :: rest) oscPat
    · rw [if_pos h, h]
      rfl
    · rw [if_neg h, Bool.eq_false_iff.mpr h]
      simpa using ih

/-- The leftmost-scan oscillation search coincides with mapping the match
builder over the first occurrence index. -/
theorem oscSearch_eq_spec :
    ∀ l : List Char, oscSearch l = (firstMatchIdx oscPat l).map (oscBuild l) := by
  intro l
  induction l with
  | nil =>
    show oscSearch [] = ((List.range 1).find? (fun i => hasPrefixL (List.drop i []) oscPat)).map _
    rw [show List.range 1 = [0] from by decide]
    have h0 : hasPrefixL (List.drop 0 ([] : List Char)) oscPat = false := by decide
    rw [List.find?_cons_of_neg _ (by simpa using h0)]
    rfl
  | cons c rest ih =>
    show (match oscAt (c :: rest) with
          | some m => some m
          | none => oscSearch rest) = (firstMatchIdx oscPat (c :: rest)).map (oscBuild (c :: rest))
    unfold oscAt firstMatchIdx
    rw [show (c :: rest).length + 1 = rest.length + 1 + 1 from rfl,
      List.range_succ_eq_map]
    by_cases h : hasPrefixL (c :: rest) oscPat
    · rw [if_pos h]
      rw [List.find?_cons_of_pos _ (by simpa using h)]
      show some _ = some (oscBuild (c :: rest) 0)
      rfl
    · rw [if_neg h]
      rw [List.find?_cons_of_neg _ (by simpa using h)]
      rw [List.find?_map, Option.map_map]
      show oscSearch rest = _
      rw [ih]
      have hfun : ((fun i => hasPrefixL (List.drop i (c :: rest)) oscPat) ∘ Nat.succ)
          = (fun i => hasPrefixL (List.drop i rest) oscPat) := funext fun i => rfl
      have hbuild : (oscBuild (c :: rest) ∘ Nat.succ) = oscBuild rest := funext fun i => rfl
      rw [hfun, hbuild]
      rfl

/-- The implementation's oscillation entry equals the specification-side
first-occurrence entry. -/
theorem oscEntry_eq_spec (line : String) : oscEntry line = oscEntrySpec line := by
  unfold oscEntry oscEntrySpec
  rw [oscSearch_eq_spec, Option.map_map]
  rfl

/-- The specification-side oscillation entry is present exactly when the
line contains the trigger substring. -/
theorem oscEntrySpec_isSome (line : String) :
    (oscEntrySpec line).isSome = containsSub oscPat line.toList := by
  rw [← oscEntry_eq_spec]
  unfold oscEntry
  rw [← oscSearch_isSome line.toList]
  cases oscSearch line.toList <;> rfl

/-- Every systemic-issues advice string starts with the fixed marker. -/
theorem systemic_has (e p : Int) :
    hasPrefixL (systemicAdvice e p).toList sysHead.toList = true := by
  unfold systemicAdvice
  simp only [toList_append, List.append_assoc]
  exact hasPrefixL_append_left _ _ (hasPrefixL_self _) _

/-- A conditional singleton block contributes no member satisfying `f`
when its element does not satisfy `f`. -/
theorem any_ite_singleton (c : Prop) [Decidable c] (x : String) (f : String → Bool)
    (hfx : f x = false) : (if c then [x] else []).any f = false := by
  split
  · simp [hfx]
  · rfl

/-- A reversed conditional singleton block contributes no member
satisfying `f` when its element does not satisfy `f`. -/
theorem any_ite_singleton_r (c : Prop) [Decidable c] (x : String) (f : String → Bool)
    (hfx : f x = false) : (if c then [] else [x]).any f = false := by
  split
  · rfl
  · simp [hfx]

/-- None of the seven core advice strings starts with the systemic-issues
marker. -/
theorem coreAdvice_not_sys (s : IssueSummary) : hasSystemic (coreAdvice s) = false := by
  have hw : ∀ t : String, hasPrefixL (backticksAdvice t).toList sysHead.toList = false := by
    intro t
    unfold backticksAdvice
    simp only [toList_append, List.append_assoc]
    rw [hasPrefixL_append_of_ge _ _ (by decide)]
    decide
  have hs : ∀ t : String, hasPrefixL (ctrlAdvice t).toList sysHead.toList = false := by
    intro t
    unfold ctrlAdvice
    simp only [toList_append, List.append_assoc]
    rw [hasPrefixL_append_of_ge _ _ (by decide)]
    decide
  unfold hasSystemic coreAdvice
  simp only [List.any_append, Bool.or_eq_false_iff]
  exact ⟨⟨⟨⟨⟨⟨any_ite_singleton_r _ _ _ (hw _),
    any_ite_singleton_r _ _ _ (by decide)⟩,
    any_ite_singleton _ _ _ (by decide)⟩,
    any_ite_singleton _ _ _ (by decide)⟩,
    any_ite_singleton_r _ _ _ (hs _)⟩,
    any_ite_singleton _ _ _ (by decide)⟩,
    any_ite_singleton _ _ _ (by decide)⟩

/-- A guarded skip-or-extend step equals appending a guarded block. -/
theorem append_ite_skip {α : Type} (c : Prop) [Decidable c] (l b : List α) :
    (if c then l else l ++ b) = l ++ (if c then [] else b) := by
  split <;> simp

/-- A guarded extend-or-skip step equals appending a guarded block. -/
theorem append_ite_add {α : Type} (c : Prop) [Decidable c] (l b : List α) :
    (if c then l ++ b else l) = l ++ (if c then b else []) := by
  split <;> simp

/-- The sequentially accumulated report lines equal the fixed section
template. -/
theorem renderLines_eq (s : IssueSummary) (advice : List String) :
    renderLines s advice = reportTemplate s advice := by
  simp only [renderLines]
  simp only [List.append_assoc]
  rw [append_ite_skip]
  rw [append_ite_add]
  rw [append_ite_add]
  rw [append_ite_add]
  rw [append_ite_add]
  rw [append_ite_skip]
  rw [append_ite_skip]
  rw [append_ite_skip]
  cases hnp : s.notes_processed with
  | none =>
    simp only [reportTemplate, hnp, pyOrInt_zero, List.append_assoc,
      List.append_nil, List.nil_append]
  | some processed =>
    simp only [reportTemplate, hnp, pyOrInt_zero, List.append_assoc,
      List.append_nil, List.nil_append]

/-! ### Claim theorems -/

/-- C1 counterexample: on the line `"x Oscillation detected"`, which does
not begin with `Oscillation detected`, the analyser still appends an
oscillation entry, and that entry (`"Oscillation detected"`) is not the
full text of the line — refuting the claim that an entry is appended if
and only if the line begins with the pattern and that the entry is the
full line. -/
theorem C1_counterexample :
    (analyse_lines ["x Oscillation detected"]).oscillation_messages =
      ["Oscillation detected"] ∧
    containsSub oscPat "x Oscillation detected".toList = true ∧
    hasPrefixL "x Oscillation detected".toList oscPat = false ∧
    ((analyse_lines ["x Oscillation detected"]).oscillation_messages ==
      ["x Oscillation detected"]) = false := by
  decide

/-- C1 (amended): for every input line, the oscillation detector appends
an entry if and only if the line contains the substring
`Oscillation detected`; the appended entry is the text of the line from
the first occurrence of that substring to the end of the line (truncated
before a newline character); entries appear in encounter order with
duplicates kept. -/
theorem C1_oscillation_amended :
    (∀ lines : List String,
      (analyse_lines lines).oscillation_messages =
        lines.flatMap (fun line => (oscEntrySpec line).toList)) ∧
    (∀ line : String, (oscEntrySpec line).isSome = containsSub oscPat line.toList) := by
  constructor
  · intro lines
    have hfun : (fun line => (oscEntry line).toList) =
        (fun line => (oscEntrySpec line).toList) :=
      funext fun l => by rw [oscEntry_eq_spec]
    have h := foldl_osc lines {}
    rw [← hfun]
    exact h
  · exact oscEntrySpec_isSome

/-- C2: a line containing `Notes Processed` overwrites `notes_processed`
with the last whitespace-delimited token that parses as an integer after
stripping the border character (right-to-left scan skipping empty and
non-integer tokens, captured by the `getLast?` of the parseable tokens),
leaving the field unchanged when no token parses; across lines the last
qualifying line wins, and the spec's two-line example yields 80. -/
theorem C2_notes_processed :
    (∀ (s : IssueSummary) (line : String),
      (analyseStep s line).notes_processed =
        if containsSub npPat line.toList then
          match extract_last_int_from line with
          | some v => some v
          | none => s.notes_processed
        else s.notes_processed) ∧
    (∀ line : String, extract_last_int_from line =
      ((pySplit line).filterMap (fun t => pyInt (stripBorder t.toList))).getLast?) ∧
    (∀ lines : List String,
      (analyse_lines lines).notes_processed = lines.foldl npFold none) ∧
    (analyse_lines ["Notes Processed │ 120", "Notes Processed │ 80"]).notes_processed =
      some 80 := by
  refine ⟨analyseStep_np, extract_eq_getLast, ?_, by decide⟩
  intro lines
  exact foldl_np lines {}

/-- C5: rendering an empty (default-initialised) summary produces exactly
the two-line banner and nothing else. -/
theorem C5_empty_report :
    render_report ({} : IssueSummary) =
      some "LLM review log analysis\n========================" := by
  decide

/-- C6: analysing a whole text is the same as analysing the text
pre-split into its lines, for every input text (with a concrete multiline
instance spelling out the split). -/
theorem C6_splitting_invariance :
    (∀ text : String, analyse_log_text text = analyse_lines (pySplitlines text)) ∧
    pySplitlines "Oscillation detected A\nNotes Processed 5\n" =
      ["Oscillation detected A", "Notes Processed 5"] ∧
    analyse_log_text "Oscillation detected A\nNotes Processed 5\n" =
      analyse_lines ["Oscillation detected A", "Notes Processed 5"] := by
  refine ⟨fun _ => rfl, by decide, by decide⟩

/-- C3: when `recommendations` returns, its advice list contains the
systemic-issues recommendation (identified by its fixed leading text) if
and only if `notes_processed` is present, `notes_with_errors` is present
and positive; when emitted it is the final entry and carries the
percentage with one decimal place, so 25 of 100 renders `25.0%`. -/
theorem C3_systemic_recommendation :
    (∀ (s : IssueSummary) (advice : List String),
      recommendations s = some advice →
      ((hasSystemic advice = true ↔
        ∃ p e : Int, s.notes_processed = some p ∧ s.notes_with_errors = some e ∧ 0 < e) ∧
       (∀ p e : Int, s.notes_processed = some p → s.notes_with_errors = some e → 0 < e →
         advice = coreAdvice s ++ [systemicAdvice e p]))) ∧
    systemicAdvice 25 100 =
      "Investigate systemic issues: 25 of 100 notes (25.0%) still end in errors despite modifications." := by
  constructor
  · intro s advice h
    simp only [recommendations] at h
    cases hp : s.notes_processed with
    | none =>
      rw [hp] at h
      have hadv : coreAdvice s = advice := Option.some.inj h
      subst hadv
      constructor
      · constructor
        · intro hfalse
          rw [coreAdvice_not_sys s] at hfalse
          exact absurd hfalse (by simp)
        · rintro ⟨p, e, hps, -, -⟩
          exact absurd hps (by simp)
      · intro p e hps _ _
        exact absurd hps (by simp)
    | some p =>
      cases he : s.notes_with_errors with
      | none =>
        rw [hp, he] at h
        have hadv : coreAdvice s = advice := Option.some.inj h
        subst hadv
        constructor
        · constructor
          · intro hfalse
            rw [coreAdvice_not_sys s] at hfalse
            exact absurd hfalse (by simp)
          · rintro ⟨p', e', -, hes', -⟩
            exact absurd hes' (by simp)
        · intro p' e' _ hes' _
          exact absurd hes' (by simp)
      | some e =>
        rw [hp, he] at h
        have h' : (if 0 < e then
            if p = 0 then none else some (coreAdvice s ++ [systemicAdvice e p])
          else some (coreAdvice s)) = some advice := h
        by_cases hpos : 0 < e
        · rw [if_pos hpos] at h'
          by_cases hzero : p = 0
          · rw [if_pos hzero] at h'
            exact absurd h' (by simp)
          · rw [if_neg hzero] at h'
            have hadv : coreAdvice s ++ [systemicAdvice e p] = advice := Option.some.inj h'
            subst hadv
            constructor
            · apply iff_of_true
              · have hx := systemic_has e p
                unfold hasSystemic
                simp only [List.any_append, List.any_cons, List.any_nil,
                  Bool.or_false, Bool.or_eq_true]
                exact Or.inr hx
              · exact ⟨p, e, rfl, rfl, hpos⟩
            · intro p' e' hps' hes' _
              rw [← Option.some.inj hps', ← Option.some.inj hes']
        · rw [if_neg hpos] at h'
          have hadv : coreAdvice s = advice := Option.some.inj h'
          subst hadv
          constructor
          · constructor
            · intro hfalse
              rw [coreAdvice_not_sys s] at hfalse
              exact absurd hfalse (by simp)
            · rintro ⟨p', e', -, hes', hpos'⟩
              rw [← Option.some.inj hes'] at hpos'
              exact absurd hpos' hpos
          · intro p' e' _ hes' hpos'
            rw [← Option.some.inj hes'] at hpos'
            exact absurd hpos' hpos
  · decide

/-- C4: `recommendations` (and hence `render_report`) fails exactly when
`notes_processed` is present and zero while `notes_with_errors` is
present and positive — the division is unguarded against a zero
denominator and evaluation is total in every other case. -/
theorem C4_division_guard :
    ∀ s : IssueSummary,
      (recommendations s = none ↔
        (s.notes_processed = some 0 ∧ ∃ e : Int, s.notes_with_errors = some e ∧ 0 < e)) ∧
      (render_report s = none ↔ recommendations s = none) := by
  intro s
  constructor
  · simp only [recommendations]
    cases hp : s.notes_processed with
    | none => simp
    | some p =>
      cases he : s.notes_with_errors with
      | none => simp
      | some e =>
        show (if 0 < e then
            if p = 0 then none else some (coreAdvice s ++ [systemicAdvice e p])
          else some (coreAdvice s)) = none ↔
          (some p = some 0 ∧ ∃ e' : Int, some e = some e' ∧ 0 < e')
        by_cases hpos : 0 < e
        · rw [if_pos hpos]
          by_cases hzero : p = 0
          · rw [if_pos hzero, hzero]
            constructor
            · intro _
              exact ⟨rfl, e, rfl, hpos⟩
            · intro _
              rfl
          · rw [if_neg hzero]
            constructor
            · intro hfalse
              exact absurd hfalse (by simp)
            · rintro ⟨hps, -⟩
              exact absurd (Option.some.inj hps) hzero
        · rw [if_neg hpos]
          constructor
          · intro hfalse
            exact absurd hfalse (by simp)
          · rintro ⟨-, e', hes', hpos'⟩
            rw [← Option.some.inj hes'] at hpos'
            exact absurd hpos' hpos
  · unfold render_report
    cases recommendations s <;> simp

/-- C7: one analyser iteration never decreases a counter, never removes
an element from a set or from the oscillation sequence, and never clears
an optional metric that is already present. -/
theorem C7_monotone_step :
    ∀ (s : IssueSummary) (line : String),
      s.recursion_limit_hits ≤ (analyseStep s line).recursion_limit_hits ∧
      s.qa_verification_none_errors ≤ (analyseStep s line).qa_verification_none_errors ∧
      s.draft_status_notes ≤ (analyseStep s line).draft_status_notes ∧
      s.future_dated_metadata_notes ≤ (analyseStep s line).future_dated_metadata_notes ∧
      (∃ t, (analyseStep s line).oscillation_messages = s.oscillation_messages ++ t) ∧
      (∀ x, x ∈ s.missing_backticks → x ∈ (analyseStep s line).missing_backticks) ∧
      (∀ x, x ∈ s.unacceptable_control_codes →
        x ∈ (analyseStep s line).unacceptable_control_codes) ∧
      (s.notes_processed.isSome = true → (analyseStep s line).notes_processed.isSome = true) ∧
      (s.notes_with_errors.isSome = true →
        (analyseStep s line).notes_with_errors.isSome = true) := by
  intro s line
  refine ⟨?_, ?_, ?_, ?_, ⟨(oscEntry line).toList, analyseStep_osc s line⟩, ?_, ?_, ?_, ?_⟩
  · rw [analyseStep_rec]
    split <;> omega
  · rw [analyseStep_qa]
    split <;> omega
  · rw [analyseStep_draft]
    split <;> omega
  · rw [analyseStep_future]
    split <;> omega
  · intro x hx
    rw [analyseStep_backticks]
    cases backtickSearch line.toList with
    | none => exact hx
    | some name => exact setAdd_mem _ _ _ hx
  · intro x hx
    rw [analyseStep_ctrl]
    cases ctrlSearch line.toList with
    | none => exact hx
    | some code => exact setAdd_mem _ _ _ hx
  · intro hx
    rw [analyseStep_np]
    split
    · cases hext : extract_last_int_from line with
      | none => exact hx
      | some v => rfl
    · exact hx
  · intro hx
    rw [analyseStep_errors]
    split
    · cases hext : extract_last_int_from line with
      | none => exact hx
      | some v => rfl
    · exact hx

/-- C7 witness: a summary with a present metric keeps it present across a
concrete iteration. -/
theorem C7_witness :
    ({ notes_processed := some 2 } : IssueSummary).notes_processed.isSome = true ∧
    (analyseStep { notes_processed := some 2 }
      "Recursion limit of 9 reached").notes_processed.isSome = true :=
  ⟨rfl, (C7_monotone_step { notes_processed := some 2 }
    "Recursion limit of 9 reached").2.2.2.2.2.2.2.1 rfl⟩

/-- C8: when a line has no integer-parseable token, the analyser does not
fail and both optional metric fields are left unchanged — in particular
still unset when starting from the empty summary. -/
theorem C8_malformed_metric :
    ∀ (s : IssueSummary) (line : String),
      extract_last_int_from line = none →
      ((analyseStep s line).notes_processed = s.notes_processed ∧
       (analyseStep s line).notes_with_errors = s.notes_with_errors ∧
       (analyse_lines [line]).notes_processed = none ∧
       (analyse_lines [line]).notes_with_errors = none) := by
  intro s line h
  have hnp : ∀ s' : IssueSummary,
      (analyseStep s' line).notes_processed = s'.notes_processed := by
    intro s'
    rw [analyseStep_np, h]
    split <;> rfl
  have herr : ∀ s' : IssueSummary,
      (analyseStep s' line).notes_with_errors = s'.notes_with_errors := by
    intro s'
    rw [analyseStep_errors, h]
    split <;> rfl
  exact ⟨hnp s, herr s, hnp {}, herr {}⟩

/-- C8 witness: the malformed metric line `"Notes Processed none"` leaves
`notes_processed` unset. -/
theorem C8_witness :
    extract_last_int_from "Notes Processed none" = none ∧
    (analyse_lines ["Notes Processed none"]).notes_processed = none :=
  ⟨by decide, (C8_malformed_metric {} "Notes Processed none" (by decide)).2.2.1⟩

/-- C9: whenever the report renders, its text is the newline-join of the
fixed section template: banner, guarded processed-notes line (errors
defaulting to 0), oscillation block in encounter order, sorted
comma-joined sets, the four count lines, and the recommendations block
last, only when non-empty — independent of how the summary was
populated. -/
theorem C9_section_order :
    ∀ (s : IssueSummary) (advice : List String),
      recommendations s = some advice →
      render_report s = some (String.intercalate "\n" (reportTemplate s advice)) := by
  intro s advice h
  unfold render_report
  rw [h]
  show some (String.intercalate "\n" (renderLines s advice)) = _
  rw [renderLines_eq]

/-- C9 witness: the template equality at a concrete summary whose only
data are the two metrics. -/
theorem C9_witness :
    render_report { notes_processed := some 100, notes_with_errors := some 25 } =
      some (String.intercalate "\n" (reportTemplate
        { notes_processed := some 100, notes_with_errors := some 25 }
        [systemicAdvice 25 100])) :=
  C9_section_order _ _ (by decide)

/-- C10: `notes_with_errors` is overwritten exactly on lines containing
`Errors` but not `Metric` whose extraction yields an integer; across
lines the last qualifying line wins, and a `Metric` line is excluded. -/
theorem C10_errors_metric :
    (∀ (s : IssueSummary) (line : String),
      (analyseStep s line).notes_with_errors =
        if containsSub errPat line.toList && !containsSub metPat line.toList then
          match extract_last_int_from line with
          | some v => some v
          | none => s.notes_with_errors
        else s.notes_with_errors) ∧
    (∀ lines : List String,
      (analyse_lines lines).notes_with_errors = lines.foldl errFold none) ∧
    (analyse_lines ["Errors │ 3", "Errors │ 7"]).notes_with_errors = some 7 ∧
    (analyse_lines ["Errors Metric 5"]).notes_with_errors = none := by
  refine ⟨analyseStep_errors, ?_, by decide, by decide⟩
  intro lines
  exact foldl_errors lines {}

/-- C3 witness: with 4 notes processed and 1 erroring, the returned
advice contains the systemic-issues recommendation. -/
theorem C3_witness : hasSystemic [systemicAdvice 1 4] = true :=
  (C3_systemic_recommendation.1
    { notes_processed := some 4, notes_with_errors := some 1 }
    [systemicAdvice 1 4] (by decide)).1.mpr ⟨4, 1, rfl, rfl, by decide⟩
